import Mathlib

/-!
Shallow embedding of the integrated SMW-overworld / SMB3-level game
(`smb3bygptandgeminiplusgrokv0.5.16.25.py`) and proofs about its
collision engine, spatial grid, state machine and overworld navigator.

Modelling conventions:
* `pygame.Rect` stores integer coordinates; assigning a float to a Rect
  coordinate truncates toward zero (`pyTrunc`).
* Python float arithmetic is modelled over `ℚ`; every quantity compared in
  the program is exactly representable at the precision the claims need.
* Python `//` is floor division (`Int.fdiv`), `%` on ints is `Int.emod`.
* `pygame.Rect.colliderect` is the strict open-interval overlap test; all
  rectangles handled by this program have positive width and height.
-/

namespace CatsArcade

/-- Truncation toward zero, the conversion Python's `int()` (and pygame's
Rect coordinate assignment) applies to a float. -/
def pyTrunc (q : ℚ) : ℤ := if 0 ≤ q then ⌊q⌋ else -⌊-q⌋

/-- An axis-aligned rectangle with integer position and size, as stored by
`pygame.Rect`. -/
structure Rect where
  x : ℤ
  y : ℤ
  w : ℤ
  h : ℤ
deriving DecidableEq, Repr

/-- `pygame.Rect.colliderect`: overlap excluding shared edges.  (pygame's
zero-size special case never triggers in this program: all geometry,
player and enemy rectangles have positive width and height.) -/
def collide (a b : Rect) : Bool :=
  a.x < b.x + b.w && a.x + a.w > b.x && a.y < b.y + b.h && a.y + a.h > b.y

/-- `rect.centery`: `y + h >> 1` in pygame's C code, i.e. floor division. -/
def Rect.centery (r : Rect) : ℤ := r.y + Int.fdiv r.h 2

/-- `rect.centerx`. -/
def Rect.centerx (r : Rect) : ℤ := r.x + Int.fdiv r.w 2

-- Spatial grid (`class Grid`).  `cells` models the Python dict of bucket
-- lists: absent keys read as the empty list (`dict.get((cx, cy), [])`).
structure Grid where
  cellSize : ℤ
  cells : ℤ × ℤ → List Rect

/-- A fresh grid (`Grid.__init__` / the state after `clear()`). -/
def Grid.empty (cs : ℤ) : Grid := ⟨cs, fun _ => []⟩

/-- `Grid.insert`: append the rectangle to every bucket in the inclusive
cell range `[left // cs .. right // cs] × [top // cs .. bottom // cs]`. -/
def Grid.insert (g : Grid) (r : Rect) : Grid :=
  let cx1 := Int.fdiv r.x g.cellSize
  let cy1 := Int.fdiv r.y g.cellSize
  let cx2 := Int.fdiv (r.x + r.w) g.cellSize
  let cy2 := Int.fdiv (r.y + r.h) g.cellSize
  { g with
    cells := fun c =>
      if cx1 ≤ c.1 ∧ c.1 ≤ cx2 ∧ cy1 ≤ c.2 ∧ c.2 ≤ cy2 then
        g.cells c ++ [r]
      else g.cells c }

/-- The integers from `a` to `b` inclusive, in order (Python's
`range(a, b + 1)`). -/
def intRange (a b : ℤ) : List ℤ :=
  (List.range (b + 1 - a).toNat).map (fun i : ℕ => a + (i : ℤ))

/-- The bucket contents scanned by `Grid.query`, in scan order
(`cx` outer loop, `cy` inner loop, bucket append order). -/
def Grid.scanned (g : Grid) (r : Rect) : List Rect :=
  let cx1 := Int.fdiv r.x g.cellSize
  let cy1 := Int.fdiv r.y g.cellSize
  let cx2 := Int.fdiv (r.x + r.w) g.cellSize
  let cy2 := Int.fdiv (r.y + r.h) g.cellSize
  (intRange cx1 cx2).flatMap fun cx =>
    (intRange cy1 cy2).flatMap fun cy => g.cells (cx, cy)

/-- The `seen`-set filter inside `Grid.query`: keep the first occurrence of
each value.  The Python `seen` set holds the tuple
`(r.x, r.y, r.width, r.height)`, i.e. the whole value of the rectangle. -/
def dedupFirst : List Rect → List Rect → List Rect
  | _, [] => []
  | seen, r :: rs =>
      if r ∈ seen then dedupFirst seen rs
      else r :: dedupFirst (r :: seen) rs

/-- `Grid.query`: scan the query rectangle's cell range and return the
bucket contents deduplicated by value. -/
def Grid.query (g : Grid) (r : Rect) : List Rect :=
  dedupFirst [] (g.scanned r)

theorem mem_dedupFirst {r : Rect} :
    ∀ (seen l : List Rect), r ∈ dedupFirst seen l ↔ r ∈ l ∧ r ∉ seen := by
  intro seen l
  induction l generalizing seen with
  | nil => simp [dedupFirst]
  | cons a rs ih =>
      by_cases ha : a ∈ seen
      · simp only [dedupFirst, if_pos ha, ih]
        constructor
        · rintro ⟨hr, hs⟩; exact ⟨List.mem_cons_of_mem _ hr, hs⟩
        · rintro ⟨hr, hs⟩
          rcases List.mem_cons.mp hr with rfl | hr
          · exact absurd ha hs
          · exact ⟨hr, hs⟩
      · simp only [dedupFirst, if_neg ha]
        constructor
        · intro h
          rcases List.mem_cons.mp h with rfl | h
          · exact ⟨List.mem_cons_self _ _, ha⟩
          · rcases (ih (a :: seen)).mp h with ⟨hr, hs⟩
            exact ⟨List.mem_cons_of_mem _ hr,
              fun hm => hs (List.mem_cons_of_mem _ hm)⟩
        · rintro ⟨hr, hs⟩
          rcases List.mem_cons.mp hr with rfl | hr
          · exact List.mem_cons_self _ _
          · by_cases hra : r = a
            · exact hra ▸ List.mem_cons_self _ _
            · exact List.mem_cons_of_mem _ ((ih (a :: seen)).mpr
                ⟨hr, fun hm => by
                  rcases List.mem_cons.mp hm with h | h
                  · exact hra h
                  · exact hs h⟩)

theorem nodup_dedupFirst : ∀ (seen l : List Rect), (dedupFirst seen l).Nodup := by
  intro seen l
  induction l generalizing seen with
  | nil => simp [dedupFirst]
  | cons a rs ih =>
      by_cases ha : a ∈ seen
      · simpa [dedupFirst, if_pos ha] using ih seen
      · simp only [dedupFirst, if_neg ha]
        refine List.nodup_cons.mpr ⟨fun hmem => ?_, ih (a :: seen)⟩
        have := (mem_dedupFirst (a :: seen) rs).mp hmem
        exact this.2 (List.mem_cons_self _ _)

theorem mem_query_iff_mem_scanned (g : Grid) (q : Rect) (r : Rect) :
    r ∈ g.query q ↔ r ∈ g.scanned q := by
  unfold Grid.query
  rw [mem_dedupFirst]
  simp

theorem mem_intRange {a b x : ℤ} : x ∈ intRange a b ↔ a ≤ x ∧ x ≤ b := by
  constructor
  · intro h
    obtain ⟨i, hi, hx⟩ := List.mem_map.mp h
    have hi' := List.mem_range.mp hi
    omega
  · rintro ⟨h1, h2⟩
    exact List.mem_map.mpr ⟨(x - a).toNat, List.mem_range.mpr (by omega), by omega⟩

-- Game data model (`IntegratedGame` fields and helper dataclasses).

/-- `self.game_state`: the strings `"overworld"`, `"level"`, `"game_over"`,
`"victory"`.  (The code never assigns `"paused"` to `game_state`; pausing is
the separate `self.paused` flag.) -/
inductive Mode
  | overworld
  | level
  | gameOver
  | victory
deriving DecidableEq, Repr

/-- `self.player_state`: `"small"`, `"big"`, `"fire"`. -/
inductive PState
  | small
  | big
  | fire
deriving DecidableEq, Repr

/-- Enemy type strings.  `load_level_from_spec` tests `etype == "goomba"`
and treats every other string as the koopa case. -/
inductive EType
  | goomba
  | koopa
deriving DecidableEq, Repr

/-- Enemy lifecycle: `"walking"` or `"stomped"`. -/
inductive EState
  | walking
  | stomped
deriving DecidableEq, Repr

/-- One entry of `self.active_enemies`.  `eid` models the Python dict's
object identity (the loop in `update_level_gameplay` iterates over a copy
of the list but mutates the shared dicts; each dict is mutated only during
its own iteration). -/
structure Enemy where
  eid : ℕ
  rect : Rect
  etype : EType
  velX : ℚ
  origY : ℤ
  state : EState
  velY : ℚ
deriving DecidableEq, Repr

/-- `LevelSpec` (gameplay-relevant fields; `name` and `background_color`
carry no logic). -/
structure LevelSpec where
  platforms : List (ℤ × ℤ × ℤ × ℤ)
  blocks : List (ℤ × ℤ)
  coins : List (ℤ × ℤ)
  enemies : List (ℤ × ℤ × EType)
  goal : ℤ × ℤ

/-- The mutable state of `IntegratedGame` (gameplay fields; screen, fonts
and sounds are external sinks).  Constants: `W = 640`, `H = 400`,
`TILE = 16`, `SCALE = 2`, so one scaled tile is 32 pixels. -/
structure LState where
  gameState : Mode
  paused : Bool
  pausedFrom : Mode
  worldIdx : ℤ
  nodeIdx : ℤ
  owDelay : ℚ
  currentSpec : Option LevelSpec
  score : ℤ
  lives : ℤ
  timeLeft : ℚ
  playerState : PState
  invincibility : ℤ
  playerRect : Rect
  velX : ℚ
  velY : ℚ
  onGround : Bool
  cameraX : ℤ
  levelWidth : ℤ
  platformRects : List Rect
  blockRects : List Rect
  coinRects : List Rect
  enemies : List Enemy
  goalRect : Option Rect
  grid : Grid

/-- `self.player_sizes`. -/
def playerSizes : PState → ℤ × ℤ
  | .small => (16, 24)
  | .big => (16, 32)
  | .fire => (16, 32)

/-- `set_player_level_state`: early-return when the state is unchanged and
the rect is already sized; otherwise resize the rect keeping its midbottom
(pygame's `midbottom` getter/setter uses `x + (w >> 1)` and sets
`x = cx - (w >> 1)`, `y = b - h`). -/
def set_player_level_state (s : PState) (st : LState) : LState :=
  if st.playerState = s ∧ (st.playerRect.w, st.playerRect.h) ≠ (0, 0) then st
  else
    let oldMid : ℤ × ℤ :=
      if st.playerRect.w = 0 then (50, 400 - 32)
      else (st.playerRect.x + Int.fdiv st.playerRect.w 2,
            st.playerRect.y + st.playerRect.h)
    let sz := playerSizes s
    { st with
      playerState := s
      playerRect :=
        { x := oldMid.1 - Int.fdiv sz.1 2
          y := oldMid.2 - sz.2
          w := sz.1
          h := sz.2 } }

/-- Enemy construction inside `load_level_from_spec`: width one scaled
tile, goombas one tile tall and koopas `int(32 * 1.5) = 48`; the rect is
placed with its bottom on the main ground platform (`H - 32`), and patrol
speed `-1` (goomba) or `-1.5` (koopa). -/
def mkEnemy (i : ℕ) (ex : ℤ) (t : EType) : Enemy :=
  let eh : ℤ := if t = .goomba then 32 else 48
  { eid := i
    rect := { x := ex, y := 400 - 32 - eh, w := 32, h := eh }
    etype := t
    velX := if t = .goomba then -1 else -(3 / 2)
    origY := 400 - 32 - eh
    state := .walking
    velY := 0 }

/-- `load_level_from_spec`. -/
def load_level_from_spec (spec : LevelSpec) (st : LState) : LState :=
  let st :=
    { st with
      gameState := .level
      paused := false
      currentSpec := some spec
      timeLeft := 300
      cameraX := 0 }
  -- level width from the maximal platform extent (`min_x` is computed by
  -- the source but unused); at least the screen width, default W.
  let lw : ℤ :=
    match (spec.platforms.map (fun p => p.1 + p.2.2.1)).max? with
    | some mx => max 640 mx
    | none => 640
  let st := { st with levelWidth := lw }
  let st := set_player_level_state .small st
  -- self.player_rect.midbottom = (TILE * SCALE * 2, H - TILE * SCALE)
  let st :=
    { st with
      playerRect :=
        { st.playerRect with
          x := 64 - Int.fdiv st.playerRect.w 2
          y := (400 - 32) - st.playerRect.h } }
  let st := { st with velX := 0, velY := 0, onGround := false, invincibility := 0 }
  let platformRects := spec.platforms.map (fun p => Rect.mk p.1 p.2.1 p.2.2.1 p.2.2.2)
  let blockRects := spec.blocks.map (fun b => Rect.mk (b.1 * 32) (b.2 * 32) 32 32)
  let coinRects := spec.coins.map (fun c => Rect.mk (c.1 * 32 + 8) (c.2 * 32 + 8) 16 16)
  let enemies := spec.enemies.mapIdx (fun i e => mkEnemy i e.1 e.2.2)
  let goal := Rect.mk spec.goal.1 spec.goal.2 32 64
  let grid := (platformRects ++ blockRects).foldl Grid.insert (Grid.empty 64)
  { st with
    platformRects := platformRects
    blockRects := blockRects
    coinRects := coinRects
    enemies := enemies
    goalRect := some goal
    grid := grid }

/-- `load_overworld_state`. -/
def load_overworld_state (st : LState) : LState :=
  { st with gameState := .overworld, paused := false }

/-- `game_over_transition`. -/
def game_over_transition (st : LState) : LState :=
  { st with gameState := .gameOver }

/-- `level_complete_transition`: enter victory and add the time bonus
`int(max(0, time_left)) * 10`. -/
def level_complete_transition (st : LState) : LState :=
  { st with
    gameState := .victory
    score := st.score + pyTrunc (max 0 st.timeLeft) * 10 }

/-- The axis argument of `handle_level_collisions`. -/
inductive Axis
  | horizontal
  | vertical
deriving DecidableEq, Repr

/-- `handle_level_collisions`: query the spatial grid once at the player's
current rectangle, then for each candidate that still overlaps push the
player out along the given axis by the sign of the axis velocity and zero
that velocity (the velocity is zeroed even when it is already zero and no
push-out happens). -/
def handle_level_collisions (dir : Axis) (st : LState) : LState :=
  let collidables := st.grid.query st.playerRect
  collidables.foldl
    (fun s rect =>
      if collide s.playerRect rect then
        match dir with
        | .horizontal =>
            let s :=
              if s.velX > 0 then
                { s with playerRect := { s.playerRect with x := rect.x - s.playerRect.w } }
              else if s.velX < 0 then
                { s with playerRect := { s.playerRect with x := rect.x + rect.w } }
              else s
            { s with velX := 0 }
        | .vertical =>
            let s :=
              if s.velY > 0 then
                { s with
                  playerRect := { s.playerRect with y := rect.y - s.playerRect.h }
                  onGround := true }
              else if s.velY < 0 then
                { s with playerRect := { s.playerRect with y := rect.y + rect.h } }
              else s
            { s with velY := 0 }
      else s)
    st

/-- `handle_player_death`: decrement lives; at zero go to game over,
otherwise set the respawn invincibility and reload the current level
(falling back to the overworld if no level is loaded). -/
def handle_player_death (st : LState) : LState :=
  let st := { st with lives := st.lives - 1 }
  if st.lives ≤ 0 then game_over_transition st
  else
    let st := { st with invincibility := 120 }
    match st.currentSpec with
    | some spec => load_level_from_spec spec st
    | none => load_overworld_state st

/-- `handle_player_hurt`: big or fire shrinks to small with a 2-second
(120-frame) invincibility window; small dies. -/
def handle_player_hurt (st : LState) : LState :=
  if st.playerState = .big ∨ st.playerState = .fire then
    let st := set_player_level_state .small st
    { st with invincibility := 120 }
  else if st.playerState = .small then handle_player_death st
  else st

/-- Replace the enemy dict with identity `i` by `e'` (in-place mutation of
the shared dict). -/
def LState.updateEnemy (st : LState) (i : ℕ) (e' : Enemy) : LState :=
  { st with enemies := st.enemies.map (fun e => if e.eid = i then e' else e) }

/-- The enemy movement of one loop iteration: advance by
`vel_x * 100 * dt` (truncated into the integer rect) and reverse the
patrol velocity at the level boundaries (the rect is not moved back). -/
def movedEnemy (dt : ℚ) (lw : ℤ) (e : Enemy) : Enemy :=
  let r1 : Rect := { e.rect with x := pyTrunc ((e.rect.x : ℚ) + e.velX * 100 * dt) }
  if r1.x < 0 ∨ r1.x + r1.w > lw then { e with rect := r1, velX := -e.velX }
  else { e with rect := r1 }

/-- The stomp outcome: mark the enemy dict stomped, give the player the
bounce velocity `JUMP_VEL * 0.6 = -6` and the 100-point bonus. -/
def stompResult (st1 : LState) (i : ℕ) (e2 : Enemy) : LState :=
  let st2 := st1.updateEnemy i { e2 with state := .stomped }
  { st2 with velY := -10 * (3 / 5), score := st2.score + 100 }

/-- The player-contact classification for a walking enemy whose movement
has been applied (`e2` is the moved enemy dict, already written back into
`st1`): a stomp when `player_vel.y > 0` and the player's bottom edge is
above the enemy's vertical center, otherwise a hurt when the invincibility
timer has expired. -/
def contact_resolution (st1 : LState) (i : ℕ) (e2 : Enemy) : LState :=
  if collide st1.playerRect e2.rect then
    if st1.velY > 0 ∧ st1.playerRect.y + st1.playerRect.h < e2.rect.centery then
      stompResult st1 i e2
    else if st1.invincibility ≤ 0 then handle_player_hurt st1
    else st1
  else st1

/-- One iteration of the enemy loop in `update_level_gameplay`, processing
the snapshot element `e`: walking enemies move and their player contact is
classified; enemies already stomped are removed from the list
(`list.remove`: first value-equal element). -/
def enemy_update_step (dt : ℚ) (st : LState) (e : Enemy) : LState :=
  if e.state = .walking then
    contact_resolution (st.updateEnemy e.eid (movedEnemy dt st.levelWidth e))
      e.eid (movedEnemy dt st.levelWidth e)
  else if e.state = .stomped then
    { st with enemies := st.enemies.erase e }
  else st

/-- One iteration of the coin loop: a coin overlapping the player is
removed (`list.remove`, first value-equal element) and scores 50. -/
def coin_step (st : LState) (c : Rect) : LState :=
  if collide st.playerRect c then
    { st with coinRects := st.coinRects.erase c, score := st.score + 50 }
  else st

/-- The per-frame pressed-key snapshot (`pygame.key.get_pressed()`). -/
structure Keys where
  left : Bool
  right : Bool
  up : Bool
  down : Bool
  space : Bool
  enter : Bool
deriving DecidableEq, Repr

/-- `self.goal_rect and self.player_rect.colliderect(self.goal_rect)`. -/
def goal_hit (st : LState) : Bool :=
  match st.goalRect with
  | some g => collide st.playerRect g
  | none => false

/-- The part of `update_level_gameplay` that runs before the goal check:
horizontal input, jump, gravity with terminal velocity, axis-separated
integration and collision resolution, camera scroll, the enemy loop over a
snapshot of `active_enemies`, and the coin loop over a snapshot of
`coin_rects`. -/
def level_tick_pre_goal (keys : Keys) (dt : ℚ) (st : LState) : LState :=
  let st := { st with velX := 0 }
  let st := if keys.left then { st with velX := -300 * dt } else st
  let st := if keys.right then { st with velX := 300 * dt } else st
  let st :=
    if keys.space ∧ st.onGround then { st with velY := -10, onGround := false }
    else st
  let st := { st with velY := st.velY + 11 / 20 }
  let st := if st.velY > 15 then { st with velY := 15 } else st
  let st :=
    { st with
      playerRect :=
        { st.playerRect with x := pyTrunc ((st.playerRect.x : ℚ) + st.velX) } }
  let st := handle_level_collisions .horizontal st
  let st :=
    { st with
      playerRect :=
        { st.playerRect with y := pyTrunc ((st.playerRect.y : ℚ) + st.velY) } }
  let st := { st with onGround := false }
  let st := handle_level_collisions .vertical st
  let st :=
    { st with
      cameraX := max 0 (min (st.playerRect.centerx - 320) (st.levelWidth - 640)) }
  let st := st.enemies.foldl (enemy_update_step dt) st
  st.coinRects.foldl coin_step st

/-- The part of `update_level_gameplay` after the goal check (reached only
when the goal was not hit): invincibility countdown, time limit, and the
fall-off-screen check. -/
def level_tick_post_goal (dt : ℚ) (st : LState) : LState :=
  let st :=
    if st.invincibility > 0 then { st with invincibility := st.invincibility - 1 }
    else st
  let st := { st with timeLeft := st.timeLeft - dt }
  let st := if st.timeLeft ≤ 0 then handle_player_death st else st
  if st.playerRect.y > 400 then handle_player_death st else st

/-- `update_level_gameplay`: early return when no level is loaded;
otherwise the pre-goal phase, then the goal check — which on success
transitions to victory and returns, skipping the rest of the tick. -/
def update_level_gameplay (keys : Keys) (dt : ℚ) (st : LState) : LState :=
  if st.currentSpec.isSome then
    if goal_hit (level_tick_pre_goal keys dt st) then
      level_complete_transition (level_tick_pre_goal keys dt st)
    else level_tick_post_goal dt (level_tick_pre_goal keys dt st)
  else st

/-- Number of nodes per world in `SMW_STYLE_MAP_DATA` (worlds 1-9). -/
def worldNodeCounts : List ℕ := [6, 8, 6, 6, 7, 7, 5, 5, 8]

/-- `len(self.smw_map_data[self.current_world_on_map]['nodes'])`. -/
def worldNodeCount (w : ℤ) : ℤ := ((worldNodeCounts.getD w.toNat 0 : ℕ) : ℤ)

/-- `update_overworld_map_navigation`.  The cooldown timer is decremented
first and input is ignored while it is positive.  Right/left move the node
cursor modulo the node count of the current world; up/down change world
and reset the cursor; enter/space select (the level table is a parameter:
`GAME_LEVEL_SPECS` contains the authored levels plus randomized
placeholder levels, whose generation is out of scope).  Any handled input
resets the cooldown to 0.18 s. -/
def update_overworld_map_navigation (specs : ℤ × ℤ → Option LevelSpec)
    (keys : Keys) (dt : ℚ) (st : LState) : LState :=
  let st := { st with owDelay := st.owDelay - dt }
  if st.owDelay > 0 then st
  else
    let n := worldNodeCount st.worldIdx
    let st1 :=
      if keys.right then some { st with nodeIdx := (st.nodeIdx + 1).emod n }
      else if keys.left then some { st with nodeIdx := (st.nodeIdx - 1 + n).emod n }
      else if keys.up then
        some { st with worldIdx := (st.worldIdx + 1).emod 9, nodeIdx := 0 }
      else if keys.down then
        some { st with worldIdx := (st.worldIdx - 1 + 9).emod 9, nodeIdx := 0 }
      else if keys.enter ∨ keys.space then
        -- node `level_id`s in the map data are exactly (world, node) pairs
        some (match specs (st.worldIdx, st.nodeIdx) with
              | some spec => load_level_from_spec spec st
              | none => st)
      else none
    match st1 with
    | some st' => { st' with owDelay := 9 / 50 }
    | none => st

/-- The keydown events the run loop handles. -/
inductive Key
  | escape
  | pauseKey
  | enter
  | other
deriving DecidableEq, Repr

/-- The `KEYDOWN` branch of `run_game_loop`: Escape leaves a level or
skips the game-over/victory screens (quitting from the overworld ends the
process, modelled as the identity); P toggles pause, remembering and
restoring the suspended mode; Enter confirms game over (resetting score
and lives) or victory.  The four `if` statements run in sequence on the
successively updated state, as in the source. -/
def handle_keydown (k : Key) (st : LState) : LState :=
  let st :=
    if k = .escape then
      if st.gameState = .level then load_overworld_state st
      else if st.gameState = .overworld then st
      else if st.gameState = .gameOver ∨ st.gameState = .victory then
        load_overworld_state st
      else st
    else st
  let st :=
    if k = .pauseKey then
      if ¬(st.gameState = .gameOver ∨ st.gameState = .victory) then
        if ¬st.paused then { st with paused := true, pausedFrom := st.gameState }
        else { st with paused := false, gameState := st.pausedFrom }
      else st
    else st
  let st :=
    if st.gameState = .gameOver ∧ k = .enter then
      load_overworld_state { st with score := 0, lives := 3 }
    else st
  if st.gameState = .victory ∧ k = .enter then load_overworld_state st
  else st

/-- The per-frame update dispatch of `run_game_loop` (drawing omitted):
while paused only the overlay is drawn and no state is mutated; otherwise
the active mode's update runs; game-over and victory only draw. -/
def frame_update (specs : ℤ × ℤ → Option LevelSpec) (keys : Keys) (dt : ℚ)
    (st : LState) : LState :=
  if st.paused then st
  else if st.gameState = .overworld then
    update_overworld_map_navigation specs keys dt st
  else if st.gameState = .level then
    match st.currentSpec with
    | some _ => update_level_gameplay keys dt st
    | none => load_overworld_state st
  else st

-- Small preservation helpers.

theorem set_player_level_state_score (s : PState) (st : LState) :
    (set_player_level_state s st).score = st.score := by
  unfold set_player_level_state; split <;> rfl

theorem set_player_level_state_lives (s : PState) (st : LState) :
    (set_player_level_state s st).lives = st.lives := by
  unfold set_player_level_state; split <;> rfl

theorem load_level_from_spec_score (spec : LevelSpec) (st : LState) :
    (load_level_from_spec spec st).score = st.score := by
  simp [load_level_from_spec, set_player_level_state_score]

theorem load_level_from_spec_lives (spec : LevelSpec) (st : LState) :
    (load_level_from_spec spec st).lives = st.lives := by
  simp [load_level_from_spec, set_player_level_state_lives]

theorem frame_update_paused (specs : ℤ × ℤ → Option LevelSpec) (keys : Keys)
    (dt : ℚ) (s : LState) (hs : s.paused = true) :
    frame_update specs keys dt s = s := by
  simp [frame_update, hs]

-- Concrete fixtures: the initial session state built by
-- `IntegratedGame.__init__` (sound and drawing objects omitted) and the
-- hand-authored level "1-3".

/-- The gameplay fields set in `IntegratedGame.__init__`
(`_initialize_player_rect` places the small player at
`(50, H - 32 - 24)`). -/
def initState : LState :=
  { gameState := .overworld
    paused := false
    pausedFrom := .overworld
    worldIdx := 0
    nodeIdx := 0
    owDelay := 0
    currentSpec := none
    score := 0
    lives := 3
    timeLeft := 300
    playerState := .small
    invincibility := 0
    playerRect := ⟨50, 344, 16, 24⟩
    velX := 0
    velY := 0
    onGround := false
    cameraX := 0
    levelWidth := 640
    platformRects := []
    blockRects := []
    coinRects := []
    enemies := []
    goalRect := none
    grid := Grid.empty 64 }

/-- `LevelSpec("1-3", ...)` from `smb3_level_definitions` with `W = 640`,
`H = 400` substituted. -/
def spec13 : LevelSpec :=
  { platforms := [(0, 368, 640, 32), (100, 304, 150, 32), (640, 368, 640, 32)]
    blocks := [(8, 16), (9, 16), (10, 16)]
    coins := [(12, 14), (13, 14)]
    enemies := [(250, 336, .goomba), (350, 336, .koopa)]
    goal := (1220, 336) }

/-- Key snapshot with nothing pressed. -/
def noKeys : Keys := ⟨false, false, false, false, false, false⟩

/-- Only the left arrow pressed. -/
def leftKeys : Keys := ⟨true, false, false, false, false, false⟩

/-- Only the right arrow pressed. -/
def rightKeys : Keys := ⟨false, true, false, false, false, false⟩

-- ======================================================================
-- C4: pause/resume round trip.

/-- C4: from an unpaused overworld or level state, pressing pause, letting
any number of frames elapse with no other input, and pressing pause again
returns to exactly the prior mode with score, lives, time, cursor indices
and the player rectangle and velocity unchanged; no game state is mutated
while paused. -/
theorem pause_resume_roundtrip (st : LState) (n : ℕ)
    (specs : ℤ × ℤ → Option LevelSpec) (keys : Keys) (dt : ℚ)
    (hp : st.paused = false)
    (hm : st.gameState = Mode.overworld ∨ st.gameState = Mode.level) :
    let st' := handle_keydown .pauseKey
      ((fun s => frame_update specs keys dt s)^[n] (handle_keydown .pauseKey st))
    st'.gameState = st.gameState ∧ st'.paused = false ∧
    st'.score = st.score ∧ st'.lives = st.lives ∧ st'.timeLeft = st.timeLeft ∧
    st'.worldIdx = st.worldIdx ∧ st'.nodeIdx = st.nodeIdx ∧
    st'.playerRect = st.playerRect ∧ st'.velX = st.velX ∧ st'.velY = st.velY := by
  have key1 : handle_keydown .pauseKey st =
      { st with paused := true, pausedFrom := st.gameState } := by
    rcases hm with h | h <;> simp [handle_keydown, h, hp]
  have key3 : (fun s => frame_update specs keys dt s)^[n] (handle_keydown .pauseKey st)
      = handle_keydown .pauseKey st := by
    apply Function.iterate_fixed
    exact frame_update_paused specs keys dt _ (by rw [key1])
  intro st'
  have hst' : st' = { st with pausedFrom := st.gameState } := by
    show handle_keydown .pauseKey _ = _
    rw [key3, key1]
    rcases hm with h | h <;> simp [handle_keydown, h, hp]
  rw [hst']
  simp [hp]

/-- Witness for C4 at the initial overworld state with three paused
frames. -/
theorem pause_resume_roundtrip_witness :
    initState.paused = false ∧
    (initState.gameState = Mode.overworld ∨ initState.gameState = Mode.level) ∧
    (handle_keydown .pauseKey
      ((fun s => frame_update (fun _ => none) noKeys (1 / 60) s)^[3]
        (handle_keydown .pauseKey initState))).score = initState.score :=
  ⟨rfl, Or.inl rfl,
    (pause_resume_roundtrip initState 3 (fun _ => none) noKeys (1 / 60) rfl
      (Or.inl rfl)).2.2.1⟩

-- ======================================================================
-- C5: overworld navigation wraps around instead of clamping.

/-- World 1 has six nodes, and the navigation code moves the cursor with
modular arithmetic: with the cursor at index 0 a left input wraps it to
index 5, not 0 as the claim states. -/
theorem overworld_left_at_zero_wraps :
    (update_overworld_map_navigation (fun _ => none) leftKeys (1 / 60)
      initState).nodeIdx = 5 ∧
    ¬ (update_overworld_map_navigation (fun _ => none) leftKeys (1 / 60)
      initState).nodeIdx = 0 := by
  constructor <;>
    norm_num [update_overworld_map_navigation, leftKeys, initState,
      worldNodeCount, worldNodeCounts, Int.emod]

/-- C5 (amended): once the input cooldown has elapsed, left/right move the
cursor by one node index modulo the node count of the current world —
wrapping at both ends rather than clamping — and reset the cooldown to
0.18 s. -/
theorem overworld_nav_wraps (st : LState) (dt : ℚ)
    (specs : ℤ × ℤ → Option LevelSpec)
    (hcool : st.owDelay - dt ≤ 0) :
    (∀ keys : Keys, keys.right = true →
      (update_overworld_map_navigation specs keys dt st).nodeIdx =
        (st.nodeIdx + 1).emod (worldNodeCount st.worldIdx) ∧
      (update_overworld_map_navigation specs keys dt st).owDelay = 9 / 50)
    ∧
    (∀ keys : Keys, keys.right = false → keys.left = true →
      (update_overworld_map_navigation specs keys dt st).nodeIdx =
        (st.nodeIdx - 1 + worldNodeCount st.worldIdx).emod
          (worldNodeCount st.worldIdx) ∧
      (update_overworld_map_navigation specs keys dt st).owDelay = 9 / 50) := by
  have hng : ¬ (st.owDelay - dt > 0) := not_lt.mpr hcool
  constructor
  · intro keys h1
    simp [update_overworld_map_navigation, h1, hng]
  · intro keys h1 h2
    simp [update_overworld_map_navigation, h1, h2, hng]

/-- Witness for C5 (amended): at world 1 node 5 (the last node), a right
input wraps the cursor to node 0. -/
theorem overworld_nav_wraps_witness :
    ({ initState with nodeIdx := 5 } : LState).owDelay - 1 / 60 ≤ 0 ∧
    rightKeys.right = true ∧
    (update_overworld_map_navigation (fun _ => none) rightKeys (1 / 60)
      { initState with nodeIdx := 5 }).nodeIdx = 0 := by
  refine ⟨by norm_num [initState], rfl, ?_⟩
  have h := ((overworld_nav_wraps { initState with nodeIdx := 5 } (1 / 60)
    (fun _ => none) (by norm_num [initState])).1 rightKeys rfl).1
  rw [h]; decide

-- ======================================================================
-- C6: score/lives reset happens only on the Enter confirmation from game
-- over; the Escape path from game over does not reset them.

/-- At the game-over screen with score 500 and zero lives, pressing Escape
returns to the overworld with score and lives unchanged — refuting the
claim that every game-over-to-overworld path resets them. -/
theorem game_over_escape_keeps_score :
    (handle_keydown .escape
      { initState with gameState := .gameOver, score := 500, lives := 0 }).gameState
        = Mode.overworld ∧
    (handle_keydown .escape
      { initState with gameState := .gameOver, score := 500, lives := 0 }).score
        = 500 ∧
    (handle_keydown .escape
      { initState with gameState := .gameOver, score := 500, lives := 0 }).lives
        = 0 := by
  refine ⟨?_, ?_, ?_⟩ <;> decide

/-- C6 (amended): score and lives persist across level reloads, and are
reset to 0 and 3 exactly on the Enter confirmation path out of game over;
the Escape skip path out of game over preserves them. -/
theorem score_lives_reset_on_confirm_only (st s2 : LState) (spec : LevelSpec)
    (h : st.gameState = Mode.gameOver) :
    ((handle_keydown .enter st).gameState = Mode.overworld ∧
     (handle_keydown .enter st).score = 0 ∧
     (handle_keydown .enter st).lives = 3)
    ∧
    ((handle_keydown .escape st).gameState = Mode.overworld ∧
     (handle_keydown .escape st).score = st.score ∧
     (handle_keydown .escape st).lives = st.lives)
    ∧
    ((load_level_from_spec spec s2).score = s2.score ∧
     (load_level_from_spec spec s2).lives = s2.lives) := by
  refine ⟨?_, ?_, load_level_from_spec_score spec s2, load_level_from_spec_lives spec s2⟩
  · simp [handle_keydown, h, load_overworld_state]
  · simp [handle_keydown, h, load_overworld_state]

/-- Witness for C6 (amended) at a concrete game-over state. -/
theorem score_lives_reset_on_confirm_only_witness :
    ({ initState with gameState := .gameOver, score := 500, lives := 0 }
        : LState).gameState = Mode.gameOver ∧
    (handle_keydown .enter
      { initState with gameState := .gameOver, score := 500, lives := 0 }).score
        = 0 :=
  ⟨rfl,
    (score_lives_reset_on_confirm_only
      { initState with gameState := .gameOver, score := 500, lives := 0 }
      initState spec13 rfl).1.2.1⟩

-- ======================================================================
-- Grid lemmas shared by the spatial-grid claims.

/-- The cell `c` lies in the inclusive cell range `insert` computes for
rectangle `r` at cell size `cs`. -/
def cellCovered (cs : ℤ) (r : Rect) (c : ℤ × ℤ) : Prop :=
  Int.fdiv r.x cs ≤ c.1 ∧ c.1 ≤ Int.fdiv (r.x + r.w) cs ∧
  Int.fdiv r.y cs ≤ c.2 ∧ c.2 ≤ Int.fdiv (r.y + r.h) cs

theorem insert_cellSize (g : Grid) (r : Rect) : (g.insert r).cellSize = g.cellSize := rfl

theorem foldl_insert_cellSize (l : List Rect) (g : Grid) :
    (l.foldl Grid.insert g).cellSize = g.cellSize := by
  induction l generalizing g with
  | nil => rfl
  | cons r rs ih => simpa using ih (g.insert r)

theorem mem_insert_cells_self (g : Grid) (r : Rect) (c : ℤ × ℤ)
    (h : cellCovered g.cellSize r c) : r ∈ (g.insert r).cells c := by
  obtain ⟨h1, h2, h3, h4⟩ := h
  simp [Grid.insert, h1, h2, h3, h4]

theorem mem_insert_cells_mono (g : Grid) (r a : Rect) (c : ℤ × ℤ)
    (h : a ∈ g.cells c) : a ∈ (g.insert r).cells c := by
  simp only [Grid.insert]
  split
  · exact List.mem_append_left _ h
  · exact h

theorem mem_cells_foldl_of_mem_cells (l : List Rect) (g : Grid) (a : Rect)
    (c : ℤ × ℤ) (h : a ∈ g.cells c) : a ∈ (l.foldl Grid.insert g).cells c := by
  induction l generalizing g with
  | nil => exact h
  | cons r rs ih => exact ih (g.insert r) (mem_insert_cells_mono g r a c h)

theorem mem_cells_foldl_of_mem_list :
    ∀ (l : List Rect) (g : Grid) (a : Rect) (c : ℤ × ℤ),
      a ∈ l → cellCovered g.cellSize a c →
      a ∈ (l.foldl Grid.insert g).cells c := by
  intro l
  induction l with
  | nil => intro g a c hmem _; cases hmem
  | cons r rs ih =>
      intro g a c hmem hcov
      rcases List.mem_cons.mp hmem with rfl | hmem
      · exact mem_cells_foldl_of_mem_cells rs (g.insert a) a c
          (mem_insert_cells_self g a c hcov)
      · exact ih (g.insert r) a c hmem hcov

theorem mem_scanned_of_mem_cells (g : Grid) (q : Rect) (a : Rect) (cx cy : ℤ)
    (hcx1 : Int.fdiv q.x g.cellSize ≤ cx)
    (hcx2 : cx ≤ Int.fdiv (q.x + q.w) g.cellSize)
    (hcy1 : Int.fdiv q.y g.cellSize ≤ cy)
    (hcy2 : cy ≤ Int.fdiv (q.y + q.h) g.cellSize)
    (h : a ∈ g.cells (cx, cy)) : a ∈ g.scanned q := by
  unfold Grid.scanned
  refine List.mem_flatMap.mpr ⟨cx, mem_intRange.mpr ⟨hcx1, hcx2⟩, ?_⟩
  exact List.mem_flatMap.mpr ⟨cy, mem_intRange.mpr ⟨hcy1, hcy2⟩, h⟩

theorem fdiv_le_fdiv_of_le {a b c : ℤ} (hc : 0 < c) (h : a ≤ b) :
    Int.fdiv a c ≤ Int.fdiv b c := by
  rw [Int.fdiv_eq_ediv _ (le_of_lt hc), Int.fdiv_eq_ediv _ (le_of_lt hc)]
  exact Int.ediv_le_ediv hc h

-- ======================================================================
-- C8: Grid.query deduplicates by value, not by identity.

/-- Inserting two rectangles with identical bounds and querying an
overlapping rectangle yields a single result entry: the `seen` set holds
the value tuple `(x, y, width, height)`, so equal-bounds rectangles are
merged — refuting the claim that both appear. -/
theorem query_merges_equal_bounds :
    (((Grid.empty 64).insert ⟨0, 0, 10, 10⟩).insert ⟨0, 0, 10, 10⟩).query
      ⟨0, 0, 10, 10⟩ = [⟨0, 0, 10, 10⟩] := by
  decide

/-- C8 (amended): `query` returns each distinct rectangle VALUE at most
once — deduplication is by the `(x, y, width, height)` tuple, not by
identity — and a value appears in the result exactly when it occurs in
some scanned bucket; two inserted rectangles with identical bounds are
therefore returned as one entry, not two. -/
theorem query_returns_each_value_once (g : Grid) (q : Rect) :
    (g.query q).Nodup ∧ ∀ r : Rect, r ∈ g.query q ↔ r ∈ g.scanned q :=
  ⟨nodup_dedupFirst [] _, fun r => mem_query_iff_mem_scanned g q r⟩

-- ======================================================================
-- C10: broad-phase completeness of the spatial grid.

/-- C10: every rectangle inserted since the last clear that overlaps the
query rectangle is present in the query result (the grid is built by
folding `insert` over the inserted list, as `load_level_from_spec` does). -/
theorem grid_query_complete (cs : ℤ) (l : List Rect) (a q : Rect)
    (hcs : 0 < cs) (ha : a ∈ l)
    (haw : 0 < a.w) (hah : 0 < a.h) (hqw : 0 < q.w) (hqh : 0 < q.h)
    (hov : collide a q = true) :
    a ∈ (l.foldl Grid.insert (Grid.empty cs)).query q := by
  have hcsz : (l.foldl Grid.insert (Grid.empty cs)).cellSize = cs :=
    foldl_insert_cellSize l (Grid.empty cs)
  have hov' : a.x < q.x + q.w ∧ q.x < a.x + a.w ∧
      a.y < q.y + q.h ∧ q.y < a.y + a.h := by
    have := hov
    simp only [collide, Bool.and_eq_true, decide_eq_true_eq] at this
    exact ⟨this.1.1.1, by omega, this.1.2, by omega⟩
  obtain ⟨h1, h2, h3, h4⟩ := hov'
  -- a common integer point of the two closed spans
  have hxa1 : a.x ≤ max a.x q.x := le_max_left _ _
  have hxa2 : max a.x q.x ≤ a.x + a.w := max_le (by omega) (by omega)
  have hxq1 : q.x ≤ max a.x q.x := le_max_right _ _
  have hxq2 : max a.x q.x ≤ q.x + q.w := max_le (by omega) (by omega)
  have hya1 : a.y ≤ max a.y q.y := le_max_left _ _
  have hya2 : max a.y q.y ≤ a.y + a.h := max_le (by omega) (by omega)
  have hyq1 : q.y ≤ max a.y q.y := le_max_right _ _
  have hyq2 : max a.y q.y ≤ q.y + q.h := max_le (by omega) (by omega)
  -- the cell of that point is covered by both rectangles' cell ranges
  have hcov : cellCovered cs a
      (Int.fdiv (max a.x q.x) cs, Int.fdiv (max a.y q.y) cs) :=
    ⟨fdiv_le_fdiv_of_le hcs hxa1, fdiv_le_fdiv_of_le hcs hxa2,
     fdiv_le_fdiv_of_le hcs hya1, fdiv_le_fdiv_of_le hcs hya2⟩
  have hmem : a ∈ (l.foldl Grid.insert (Grid.empty cs)).cells
      (Int.fdiv (max a.x q.x) cs, Int.fdiv (max a.y q.y) cs) :=
    mem_cells_foldl_of_mem_list l (Grid.empty cs) a _ ha (by rw [Grid.empty]; exact hcov)
  have hscan : a ∈ (l.foldl Grid.insert (Grid.empty cs)).scanned q := by
    refine mem_scanned_of_mem_cells _ q a _ _ ?_ ?_ ?_ ?_ hmem <;> rw [hcsz]
    · exact fdiv_le_fdiv_of_le hcs hxq1
    · exact fdiv_le_fdiv_of_le hcs hxq2
    · exact fdiv_le_fdiv_of_le hcs hyq1
    · exact fdiv_le_fdiv_of_le hcs hyq2
  exact (mem_query_iff_mem_scanned _ q a).mpr hscan

/-- Witness for C10: the ground platform of level 1-3 is found when the
player's rectangle overlapping it is queried. -/
theorem grid_query_complete_witness :
    (0 : ℤ) < 64 ∧ (⟨0, 368, 640, 32⟩ : Rect) ∈ [(⟨0, 368, 640, 32⟩ : Rect)] ∧
    collide ⟨0, 368, 640, 32⟩ ⟨50, 350, 16, 24⟩ = true ∧
    (⟨0, 368, 640, 32⟩ : Rect) ∈
      ([(⟨0, 368, 640, 32⟩ : Rect)].foldl Grid.insert (Grid.empty 64)).query
        ⟨50, 350, 16, 24⟩ :=
  ⟨by decide, by decide, by decide,
    grid_query_complete 64 [⟨0, 368, 640, 32⟩] ⟨0, 368, 640, 32⟩
      ⟨50, 350, 16, 24⟩ (by decide) (by decide) (by decide) (by decide)
      (by decide) (by decide) (by decide)⟩

-- ======================================================================
-- C9: level reload determinism and frame conditions.

/-- Player-rect size invariant maintained by the program: a small player's
rectangle is 16 x 24 (every reachable state satisfies this; the rect is
sized only by `_initialize_player_rect` and `set_player_level_state`). -/
def sizeInv (st : LState) : Prop :=
  st.playerState = PState.small → st.playerRect.w = 16 ∧ st.playerRect.h = 24

/-- C9: reloading a level from its spec yields identical initial geometry
(platforms, blocks, coins, goal) regardless of the prior session state,
leaves score and lives unchanged, and puts the player at the level start
`(56, 344)` (midbottom `(64, 368)`) with `on_ground = false`. -/
theorem load_level_respawn (spec : LevelSpec) (st1 st2 : LState)
    (h1 : sizeInv st1) :
    (load_level_from_spec spec st1).platformRects
        = (load_level_from_spec spec st2).platformRects ∧
    (load_level_from_spec spec st1).blockRects
        = (load_level_from_spec spec st2).blockRects ∧
    (load_level_from_spec spec st1).coinRects
        = (load_level_from_spec spec st2).coinRects ∧
    (load_level_from_spec spec st1).goalRect
        = (load_level_from_spec spec st2).goalRect ∧
    (load_level_from_spec spec st1).score = st1.score ∧
    (load_level_from_spec spec st1).lives = st1.lives ∧
    (load_level_from_spec spec st1).playerRect = ⟨56, 344, 16, 24⟩ ∧
    (load_level_from_spec spec st1).onGround = false := by
  refine ⟨rfl, rfl, rfl, rfl, load_level_from_spec_score spec st1,
    load_level_from_spec_lives spec st1, ?_, rfl⟩
  cases hps : st1.playerState with
  | small =>
      obtain ⟨hw, hh⟩ := h1 hps
      simp [load_level_from_spec, set_player_level_state, hps, hw, hh, playerSizes]
  | big =>
      simp [load_level_from_spec, set_player_level_state, hps, playerSizes]
  | fire =>
      simp [load_level_from_spec, set_player_level_state, hps, playerSizes]

/-- Witness for C9 at the initial state and the game-over state. -/
theorem load_level_respawn_witness :
    sizeInv initState ∧
    (load_level_from_spec spec13 initState).playerRect = ⟨56, 344, 16, 24⟩ :=
  ⟨fun _ => ⟨rfl, rfl⟩,
    (load_level_respawn spec13 initState
      { initState with gameState := .gameOver } (fun _ => ⟨rfl, rfl⟩)).2.2.2.2.2.2.1⟩

-- ======================================================================
-- C3: hurt/death state machine.  The respawn path sets the 120-frame
-- grace period and then reloads the level, but `load_level_from_spec`
-- resets `invincibility_timer` to 0 — contradicting the code's own
-- comment ("Brief invincibility on respawn") and the claim.

/-- Evaluating a small-player hurt at the start of level 1-3 with 3 lives:
the death decrements lives to 2 and reloads the level with the player at
the start, but the invincibility timer at the first tick after the reload
is 0, not the brief non-zero grace period the claim states. -/
theorem respawn_grace_period_is_zero :
    (handle_player_hurt (load_level_from_spec spec13 initState)).lives = 2 ∧
    (handle_player_hurt (load_level_from_spec spec13 initState)).gameState
        = Mode.level ∧
    (handle_player_hurt (load_level_from_spec spec13 initState)).playerRect
        = ⟨56, 344, 16, 24⟩ ∧
    (handle_player_hurt (load_level_from_spec spec13 initState)).invincibility
        = 0 := by
  refine ⟨?_, ?_, ?_, ?_⟩ <;> decide

-- ======================================================================
-- C2: stomp classification on player-enemy contact.

/-- The lifecycle state of the enemy dict with identity `i`. -/
def enemyStateOf (st : LState) (i : ℕ) : Option EState :=
  (st.enemies.find? (fun x => x.eid == i)).map Enemy.state

theorem find_update_eid (l : List Enemy) (i : ℕ) (e e' : Enemy)
    (he : e ∈ l) (hei : e.eid = i) (hid : e'.eid = i) :
    (l.map (fun x => if x.eid = i then e' else x)).find? (fun x => x.eid == i)
      = some e' := by
  induction l with
  | nil => cases he
  | cons a as ih =>
      rw [List.map_cons]
      by_cases ha : a.eid = i
      · rw [if_pos ha]
        exact List.find?_cons_of_pos _ (by simp [hid])
      · have he' : e ∈ as := by
          rcases List.mem_cons.mp he with rfl | h
          · exact absurd hei ha
          · exact h
        rw [if_neg ha, List.find?_cons_of_neg _ (by simp [ha])]
        exact ih he'

theorem movedEnemy_eid (dt : ℚ) (lw : ℤ) (e : Enemy) :
    (movedEnemy dt lw e).eid = e.eid := by
  simp only [movedEnemy]; split <;> rfl

theorem enemyStateOf_double_update (st : LState) (e e2 e3 : Enemy)
    (he : e ∈ st.enemies) (h2 : e2.eid = e.eid) (h3 : e3.eid = e.eid) :
    enemyStateOf ((st.updateEnemy e.eid e2).updateEnemy e.eid e3) e.eid
      = some e3.state := by
  unfold enemyStateOf LState.updateEnemy
  have he2 : e2 ∈ st.enemies.map (fun x => if x.eid = e.eid then e2 else x) :=
    List.mem_map.mpr ⟨e, he, by simp⟩
  rw [find_update_eid _ e.eid e2 e3 he2 h2 h3]
  rfl

theorem handle_player_death_score (st : LState) :
    (handle_player_death st).score = st.score := by
  simp only [handle_player_death, game_over_transition]
  split
  · rfl
  · split
    · rw [load_level_from_spec_score]
    · rfl

theorem handle_player_hurt_score (st : LState) :
    (handle_player_hurt st).score = st.score := by
  unfold handle_player_hurt
  split
  · simp [set_player_level_state_score]
  · split
    · exact handle_player_death_score st
    · rfl

/-- C2: given a player-enemy overlap with a walking enemy, the contact is
a stomp exactly when the player's vertical velocity is downward
(`velocity.y > 0`) and the player's bottom edge is above the enemy's
vertical center; a stomp marks the enemy stomped (removed next tick),
adds the 100-point bonus and sets the player's vertical velocity to the
upward bounce `-6`; otherwise the score is unchanged and, if the
invincibility timer has expired, the hurt handler runs. -/
theorem stomp_classification (st : LState) (e : Enemy) (dt : ℚ)
    (hw : e.state = EState.walking)
    (he : e ∈ st.enemies)
    (hov : collide st.playerRect (movedEnemy dt st.levelWidth e).rect = true) :
    ((st.velY > 0 ∧ st.playerRect.y + st.playerRect.h <
        (movedEnemy dt st.levelWidth e).rect.centery) →
      (enemy_update_step dt st e).score = st.score + 100 ∧
      (enemy_update_step dt st e).velY = -6 ∧
      (enemy_update_step dt st e).velY < 0 ∧
      enemyStateOf (enemy_update_step dt st e) e.eid = some EState.stomped)
    ∧
    (¬(st.velY > 0 ∧ st.playerRect.y + st.playerRect.h <
        (movedEnemy dt st.levelWidth e).rect.centery) →
      (enemy_update_step dt st e).score = st.score ∧
      (st.invincibility ≤ 0 →
        enemy_update_step dt st e
          = handle_player_hurt
              (st.updateEnemy e.eid (movedEnemy dt st.levelWidth e)))) := by
  have hov2 : collide
      (st.updateEnemy e.eid (movedEnemy dt st.levelWidth e)).playerRect
      (movedEnemy dt st.levelWidth e).rect = true := hov
  have hstep : enemy_update_step dt st e =
      contact_resolution (st.updateEnemy e.eid (movedEnemy dt st.levelWidth e))
        e.eid (movedEnemy dt st.levelWidth e) := by
    unfold enemy_update_step
    rw [if_pos hw]
  constructor
  · intro hc
    have hc2 : (st.updateEnemy e.eid (movedEnemy dt st.levelWidth e)).velY > 0 ∧
        (st.updateEnemy e.eid (movedEnemy dt st.levelWidth e)).playerRect.y +
          (st.updateEnemy e.eid (movedEnemy dt st.levelWidth e)).playerRect.h <
          (movedEnemy dt st.levelWidth e).rect.centery := hc
    have hres : enemy_update_step dt st e =
        stompResult (st.updateEnemy e.eid (movedEnemy dt st.levelWidth e))
          e.eid (movedEnemy dt st.levelWidth e) := by
      rw [hstep]; unfold contact_resolution; rw [if_pos hov2, if_pos hc2]
    rw [hres]
    refine ⟨rfl, ?_, ?_, ?_⟩
    · show (-10 : ℚ) * (3 / 5) = -6
      norm_num
    · show (-10 : ℚ) * (3 / 5) < 0
      norm_num
    · exact enemyStateOf_double_update st e _ _ he (movedEnemy_eid dt _ e)
        (movedEnemy_eid dt _ e)
  · intro hc
    have hc2 : ¬((st.updateEnemy e.eid (movedEnemy dt st.levelWidth e)).velY > 0 ∧
        (st.updateEnemy e.eid (movedEnemy dt st.levelWidth e)).playerRect.y +
          (st.updateEnemy e.eid (movedEnemy dt st.levelWidth e)).playerRect.h <
          (movedEnemy dt st.levelWidth e).rect.centery) := hc
    by_cases hinv : st.invincibility ≤ 0
    · have hinv2 : (st.updateEnemy e.eid
          (movedEnemy dt st.levelWidth e)).invincibility ≤ 0 := hinv
      have hres : enemy_update_step dt st e =
          handle_player_hurt
            (st.updateEnemy e.eid (movedEnemy dt st.levelWidth e)) := by
        rw [hstep]; unfold contact_resolution
        rw [if_pos hov2, if_neg hc2, if_pos hinv2]
      rw [hres]
      exact ⟨by rw [handle_player_hurt_score]; rfl, fun _ => rfl⟩
    · have hinv2 : ¬(st.updateEnemy e.eid
          (movedEnemy dt st.levelWidth e)).invincibility ≤ 0 := hinv
      have hres : enemy_update_step dt st e =
          st.updateEnemy e.eid (movedEnemy dt st.levelWidth e) := by
        rw [hstep]; unfold contact_resolution
        rw [if_pos hov2, if_neg hc2, if_neg hinv2]
      rw [hres]
      exact ⟨rfl, fun h => absurd h hinv⟩

/-- A goomba of level 1-3 as built by `load_level_from_spec`. -/
def enemy0 : Enemy :=
  ⟨0, ⟨250, 336, 32, 32⟩, .goomba, -1, 336, .walking, 0⟩

/-- A level state with the player falling onto `enemy0` from above. -/
def stompState : LState :=
  { initState with
    gameState := .level
    levelWidth := 1280
    playerRect := ⟨250, 320, 16, 24⟩
    velY := 5
    enemies := [enemy0] }

/-- Witness for C2: the player falling (velocity 5) with its bottom edge
at 344, above the goomba's center 352, stomps it for 100 points. -/
theorem stomp_classification_witness :
    enemy0.state = EState.walking ∧
    enemy0 ∈ stompState.enemies ∧
    collide stompState.playerRect
      (movedEnemy 0 stompState.levelWidth enemy0).rect = true ∧
    (stompState.velY > 0 ∧
      stompState.playerRect.y + stompState.playerRect.h <
        (movedEnemy 0 stompState.levelWidth enemy0).rect.centery) ∧
    (enemy_update_step 0 stompState enemy0).score = stompState.score + 100 := by
  have hmove : movedEnemy 0 stompState.levelWidth enemy0 = enemy0 := by
    simp [movedEnemy, enemy0, stompState, initState, pyTrunc, Int.floor_intCast]
  have hmem : enemy0 ∈ stompState.enemies := List.mem_singleton.mpr rfl
  have hov : collide stompState.playerRect
      (movedEnemy 0 stompState.levelWidth enemy0).rect = true := by
    rw [hmove]; decide
  have hcond : stompState.velY > 0 ∧
      stompState.playerRect.y + stompState.playerRect.h <
        (movedEnemy 0 stompState.levelWidth enemy0).rect.centery := by
    rw [hmove]
    exact ⟨by norm_num [stompState], by decide⟩
  exact ⟨rfl, hmem, hov, hcond,
    ((stomp_classification stompState enemy0 0 rfl hmem hov).1 hcond).1⟩

-- ======================================================================
-- C1: residual penetration after axis resolution.

theorem collide_eq_true_iff (a b : Rect) :
    collide a b = true ↔
      a.x < b.x + b.w ∧ a.x + a.w > b.x ∧ a.y < b.y + b.h ∧ a.y + a.h > b.y := by
  simp [collide, and_assoc]

/-- The koopa of level 1-3 shortly before it reaches the raised platform
`(100, 304, 150, 32)` while patrolling left along the ground. -/
def koopa1 : Enemy :=
  ⟨1, ⟨240, 320, 32, 48⟩, .koopa, -(3 / 2), 320, .walking, 0⟩

/-- Level 1-3 with the koopa at x = 240 and the player far away. -/
def enemyClipState : LState :=
  { initState with
    gameState := .level
    levelWidth := 1280
    platformRects := [⟨0, 368, 640, 32⟩, ⟨100, 304, 150, 32⟩, ⟨640, 368, 640, 32⟩]
    playerRect := ⟨600, 344, 16, 24⟩
    enemies := [koopa1] }

/-- A level state whose geometry has two blocks close together: pushing
the rightward-moving player out of the first lands it inside the second,
whose check then finds zero horizontal velocity and does not move it. -/
def twoBlockState : LState :=
  { initState with
    gameState := .level
    playerRect := ⟨92, 0, 16, 24⟩
    velX := 5
    blockRects := [⟨100, 0, 32, 32⟩, ⟨90, 0, 8, 32⟩]
    grid := [(⟨100, 0, 32, 32⟩ : Rect), ⟨90, 0, 8, 32⟩].foldl Grid.insert
      (Grid.empty 64) }

/-- The claim fails twice.  (1) Enemies get no collision resolution at
all: after its per-tick movement update the level 1-3 koopa's rectangle
overlaps the raised platform it walked into.  (2) The player's own pass
can leave residual penetration: resolving against the first of two nearby
blocks zeroes the velocity and pushes the player inside the second block,
whose subsequent check then moves nothing. -/
theorem residual_penetration_after_resolution :
    ((enemy_update_step (1 / 60) enemyClipState koopa1).enemies.map Enemy.rect
        = [⟨237, 320, 32, 48⟩] ∧
      collide ⟨237, 320, 32, 48⟩ ⟨100, 304, 150, 32⟩ = true ∧
      (⟨100, 304, 150, 32⟩ : Rect) ∈
        (enemy_update_step (1 / 60) enemyClipState koopa1).platformRects)
    ∧
    (collide (handle_level_collisions .horizontal twoBlockState).playerRect
        ⟨90, 0, 8, 32⟩ = true ∧
      (⟨90, 0, 8, 32⟩ : Rect) ∈
        (handle_level_collisions .horizontal twoBlockState).blockRects) := by
  have hmove : movedEnemy (1 / 60) enemyClipState.levelWidth koopa1 =
      ⟨1, ⟨237, 320, 32, 48⟩, .koopa, -(3 / 2), 320, .walking, 0⟩ := by
    norm_num [movedEnemy, pyTrunc, koopa1, enemyClipState, initState]
  have hstep : enemy_update_step (1 / 60) enemyClipState koopa1 =
      enemyClipState.updateEnemy koopa1.eid
        ⟨1, ⟨237, 320, 32, 48⟩, .koopa, -(3 / 2), 320, .walking, 0⟩ := by
    unfold enemy_update_step
    rw [if_pos (show koopa1.state = EState.walking from rfl), hmove]
    unfold contact_resolution
    rw [if_neg (show ¬(collide (enemyClipState.updateEnemy koopa1.eid
      ⟨1, ⟨237, 320, 32, 48⟩, .koopa, -(3 / 2), 320, .walking, 0⟩).playerRect
      (⟨1, ⟨237, 320, 32, 48⟩, .koopa, -(3 / 2), 320, .walking, 0⟩ : Enemy).rect
        = true) by decide)]
  have hplayer : handle_level_collisions .horizontal twoBlockState =
      { twoBlockState with
        playerRect := ⟨84, 0, 16, 24⟩
        velX := 0 } := by
    have hq : twoBlockState.grid.query twoBlockState.playerRect
        = [⟨100, 0, 32, 32⟩, ⟨90, 0, 8, 32⟩] := by decide
    unfold handle_level_collisions
    rw [hq]
    simp only [List.foldl]
    norm_num [collide, twoBlockState, initState]
  constructor
  · rw [hstep]
    refine ⟨?_, by decide, by decide⟩
    show ([koopa1].map fun e =>
      if e.eid = koopa1.eid then _ else e).map Enemy.rect = _
    decide
  · rw [hplayer]
    exact ⟨by decide, by decide⟩

/-- C1 (amended): the player-only, single-candidate form that does hold:
when the broad-phase query returns a single rectangle and the velocity on
the resolved axis is non-zero, the pass leaves the player not overlapping
that rectangle, and zeroes the axis velocity whenever there was an
overlap.  (Enemies receive no static-geometry resolution, and with
several overlapping candidates the player's pass can leave residual
penetration, per the counterexample.) -/
theorem single_candidate_resolution (st : LState) (r : Rect)
    (hq : st.grid.query st.playerRect = [r]) :
    (st.velX ≠ 0 →
      collide (handle_level_collisions .horizontal st).playerRect r = false ∧
      (collide st.playerRect r = true →
        (handle_level_collisions .horizontal st).velX = 0))
    ∧
    (st.velY ≠ 0 →
      collide (handle_level_collisions .vertical st).playerRect r = false ∧
      (collide st.playerRect r = true →
        (handle_level_collisions .vertical st).velY = 0)) := by
  constructor
  · intro hvx
    unfold handle_level_collisions
    rw [hq]
    simp only [List.foldl]
    by_cases hcol : collide st.playerRect r = true
    · rw [if_pos hcol]
      rcases lt_or_gt_of_ne hvx with hneg | hpos
      · rw [if_neg (asymm hneg), if_pos hneg]
        refine ⟨?_, fun _ => rfl⟩
        simp [Bool.eq_false_iff, collide_eq_true_iff]
      · rw [if_pos hpos]
        refine ⟨?_, fun _ => rfl⟩
        simp [Bool.eq_false_iff, collide_eq_true_iff]
    · rw [if_neg hcol]
      exact ⟨by rwa [Bool.not_eq_true] at hcol, fun h => absurd h hcol⟩
  · intro hvy
    unfold handle_level_collisions
    rw [hq]
    simp only [List.foldl]
    by_cases hcol : collide st.playerRect r = true
    · rw [if_pos hcol]
      rcases lt_or_gt_of_ne hvy with hneg | hpos
      · rw [if_neg (asymm hneg), if_pos hneg]
        refine ⟨?_, fun _ => rfl⟩
        simp [Bool.eq_false_iff, collide_eq_true_iff]
      · rw [if_pos hpos]
        refine ⟨?_, fun _ => rfl⟩
        simp [Bool.eq_false_iff, collide_eq_true_iff]
    · rw [if_neg hcol]
      exact ⟨by rwa [Bool.not_eq_true] at hcol, fun h => absurd h hcol⟩

/-- A level state with a single block overlapping the fast-moving
player. -/
def oneBlockState : LState :=
  { initState with
    gameState := .level
    playerRect := ⟨92, 0, 16, 24⟩
    velX := 5
    velY := 5
    blockRects := [⟨100, 0, 32, 32⟩]
    grid := [(⟨100, 0, 32, 32⟩ : Rect)].foldl Grid.insert (Grid.empty 64) }

/-- Witness for C1 (amended) at a single-block state. -/
theorem single_candidate_resolution_witness :
    oneBlockState.grid.query oneBlockState.playerRect = [⟨100, 0, 32, 32⟩] ∧
    oneBlockState.velX ≠ 0 ∧
    collide (handle_level_collisions .horizontal oneBlockState).playerRect
      ⟨100, 0, 32, 32⟩ = false := by
  have hq : oneBlockState.grid.query oneBlockState.playerRect
      = [⟨100, 0, 32, 32⟩] := by decide
  have hvx : oneBlockState.velX ≠ 0 := by norm_num [oneBlockState, initState]
  exact ⟨hq, hvx, ((single_candidate_resolution oneBlockState _ hq).1 hvx).1⟩

-- ======================================================================
-- C7: reaching the goal short-circuits the tick.

theorem flatMap_const_nil {α β : Type} (l : List α) :
    (l.flatMap fun _ => ([] : List β)) = [] := by
  induction l with
  | nil => rfl
  | cons a as ih => simp [List.flatMap_cons, ih]

theorem query_empty (cs : ℤ) (r : Rect) : (Grid.empty cs).query r = [] := by
  unfold Grid.query Grid.scanned Grid.empty
  rw [show ((fun _ : ℤ × ℤ => ([] : List Rect)) = fun _ => []) from rfl]
  simp only [flatMap_const_nil]
  rfl

theorem handle_collisions_of_query_nil (d : Axis) (st : LState)
    (h : st.grid.query st.playerRect = []) :
    handle_level_collisions d st = st := by
  unfold handle_level_collisions
  rw [h]
  rfl

theorem level_complete_gameState (st : LState) :
    (level_complete_transition st).gameState = Mode.victory := rfl

theorem level_complete_score (st : LState) :
    (level_complete_transition st).score
      = st.score + pyTrunc (max 0 st.timeLeft) * 10 := rfl

theorem level_complete_timeLeft (st : LState) :
    (level_complete_transition st).timeLeft = st.timeLeft := rfl

theorem level_complete_invincibility (st : LState) :
    (level_complete_transition st).invincibility = st.invincibility := rfl

theorem level_complete_coinRects (st : LState) :
    (level_complete_transition st).coinRects = st.coinRects := rfl

theorem level_complete_enemies (st : LState) :
    (level_complete_transition st).enemies = st.enemies := rfl

theorem level_complete_lives (st : LState) :
    (level_complete_transition st).lives = st.lives := rfl

theorem level_complete_playerRect (st : LState) :
    (level_complete_transition st).playerRect = st.playerRect := rfl

/-- C7: if the player overlaps the goal at the goal check of a level tick
(the state `level_tick_pre_goal` produces), the tick ends in victory with
the time bonus `floor(time_left) * 10` added, and nothing after the goal
check runs: time, invincibility, coins, enemies, lives and the player
rectangle are left exactly as the pre-goal phase produced them. -/
theorem goal_short_circuit (keys : Keys) (dt : ℚ) (st : LState)
    (hspec : st.currentSpec.isSome = true)
    (hgoal : goal_hit (level_tick_pre_goal keys dt st) = true)
    (htime : 0 ≤ (level_tick_pre_goal keys dt st).timeLeft) :
    (update_level_gameplay keys dt st).gameState = Mode.victory ∧
    (update_level_gameplay keys dt st).score =
      (level_tick_pre_goal keys dt st).score +
        ⌊(level_tick_pre_goal keys dt st).timeLeft⌋ * 10 ∧
    (update_level_gameplay keys dt st).timeLeft
      = (level_tick_pre_goal keys dt st).timeLeft ∧
    (update_level_gameplay keys dt st).invincibility
      = (level_tick_pre_goal keys dt st).invincibility ∧
    (update_level_gameplay keys dt st).coinRects
      = (level_tick_pre_goal keys dt st).coinRects ∧
    (update_level_gameplay keys dt st).enemies
      = (level_tick_pre_goal keys dt st).enemies ∧
    (update_level_gameplay keys dt st).lives
      = (level_tick_pre_goal keys dt st).lives ∧
    (update_level_gameplay keys dt st).playerRect
      = (level_tick_pre_goal keys dt st).playerRect := by
  have hrun : update_level_gameplay keys dt st
      = level_complete_transition (level_tick_pre_goal keys dt st) := by
    unfold update_level_gameplay
    rw [if_pos hspec, if_pos hgoal]
  have hpt : pyTrunc (max 0 (level_tick_pre_goal keys dt st).timeLeft)
      = ⌊(level_tick_pre_goal keys dt st).timeLeft⌋ := by
    unfold pyTrunc
    rw [max_eq_right htime, if_pos htime]
  rw [hrun]
  rw [level_complete_gameState, level_complete_score, level_complete_timeLeft,
    level_complete_invincibility, level_complete_coinRects,
    level_complete_enemies, level_complete_lives, level_complete_playerRect,
    hpt]
  exact ⟨rfl, rfl, rfl, rfl, rfl, rfl, rfl, rfl⟩

/-- A level-1-3 state with the player straddling the goal. -/
def goalState : LState :=
  { initState with
    gameState := .level
    currentSpec := some spec13
    levelWidth := 1280
    playerRect := ⟨1220, 330, 16, 24⟩
    goalRect := some ⟨1220, 336, 32, 64⟩
    timeLeft := 300 }

/-- Witness for C7: with no input, the pre-goal phase only applies gravity
(truncated away by the integer rectangle), the goal overlap holds at the
check, and the tick ends in victory. -/
theorem goal_short_circuit_witness :
    goalState.currentSpec.isSome = true ∧
    goal_hit (level_tick_pre_goal noKeys (1 / 60) goalState) = true ∧
    0 ≤ (level_tick_pre_goal noKeys (1 / 60) goalState).timeLeft ∧
    (update_level_gameplay noKeys (1 / 60) goalState).gameState
      = Mode.victory := by
  have hpre : level_tick_pre_goal noKeys (1 / 60) goalState =
      { goalState with
        velY := 11 / 20
        playerRect := ⟨1220, 330, 16, 24⟩
        onGround := false
        cameraX := 640 } := by
    unfold level_tick_pre_goal
    norm_num [handle_collisions_of_query_nil, query_empty, noKeys, goalState,
      initState, pyTrunc, Rect.centerx, show Int.fdiv 16 2 = 8 from rfl]
  have hgoal : goal_hit (level_tick_pre_goal noKeys (1 / 60) goalState)
      = true := by
    rw [hpre]
    decide
  have htime : (0 : ℚ) ≤ (level_tick_pre_goal noKeys (1 / 60) goalState).timeLeft := by
    rw [hpre]
    norm_num [goalState, initState]
  refine ⟨rfl, hgoal, htime, ?_⟩
  exact (goal_short_circuit noKeys (1 / 60) goalState rfl hgoal htime).1

end CatsArcade
